import Mathlib

/-!
Verification development for the agentcost SDK core: the pricing resolver and
cost calculator (src/agentcost/cost_calculator.py, src/agentcost/config.py),
the HTTP delivery client and rate limiter (src/agentcost/http_client.py), and
the hybrid event batcher (src/agentcost/batcher.py).

Modelling conventions:
- Python floats are modelled as exact rationals (ℚ); Python ints as ℤ/ℕ.
- Python dicts that are iterated in insertion order are modelled as
  association lists (List (String × ·)).
- Stateful methods become pure functions from an explicit state to a new
  state; code that raises is modelled with Option, and a thread-spawning or
  callback-invoking method additionally returns the list of batches it
  dispatched, so that delivery counts are observable.
- Network I/O is not performed: the dynamic-pricing fetch is modelled in its
  failure/absent mode, which leaves the cache unchanged (the exception path
  of DynamicPricingManager._fetch_pricing), and the HTTP response is an
  explicit outcome datum fed to send_events.
-/

/-- Result of str.lower() restricted to the character-wise Char.toLower map. -/
def pyLower (s : String) : String := ⟨s.data.map Char.toLower⟩

/-- Helper for Python substring containment over char lists. -/
def subSeq : List Char → List Char → Bool
  | n, [] => n.isEmpty
  | n, c :: cs => n.isPrefixOf (c :: cs) || subSeq n cs

/-- Python's `needle in hay` test on strings (substring containment). -/
def strHasSub (needle hay : String) : Bool := subSeq needle.data hay.data

/-- PricingEntry: input/output USD rate per 1000 tokens. -/
structure Pricing where
  input : ℚ
  output : ℚ
deriving DecidableEq, Repr

/-- DEFAULT_PRICING table from src/agentcost/config.py. -/
def DEFAULT_PRICING : List (String × Pricing) := [
  ("gpt-4", ⟨0.03, 0.06⟩),
  ("gpt-4-turbo", ⟨0.01, 0.03⟩),
  ("gpt-4-turbo-preview", ⟨0.01, 0.03⟩),
  ("gpt-4o", ⟨0.0025, 0.01⟩),
  ("gpt-4o-mini", ⟨0.00015, 0.0006⟩),
  ("gpt-3.5-turbo", ⟨0.0005, 0.0015⟩),
  ("gpt-3.5-turbo-16k", ⟨0.003, 0.004⟩),
  ("o1", ⟨0.015, 0.06⟩),
  ("o1-preview", ⟨0.015, 0.06⟩),
  ("o1-mini", ⟨0.003, 0.012⟩),
  ("claude-3-opus", ⟨0.015, 0.075⟩),
  ("claude-3-sonnet", ⟨0.003, 0.015⟩),
  ("claude-3-haiku", ⟨0.00025, 0.00125⟩),
  ("claude-3-5-sonnet", ⟨0.003, 0.015⟩),
  ("claude-3-5-haiku", ⟨0.0008, 0.004⟩),
  ("claude-4-opus", ⟨0.015, 0.075⟩),
  ("llama-3.1-8b-instant", ⟨0.00005, 0.00008⟩),
  ("llama-3.1-70b-versatile", ⟨0.00059, 0.00079⟩),
  ("llama-3.2-3b-preview", ⟨0.00006, 0.00006⟩),
  ("llama-3.3-70b-versatile", ⟨0.00059, 0.00079⟩),
  ("mixtral-8x7b-32768", ⟨0.00024, 0.00024⟩),
  ("gemini-pro", ⟨0.00025, 0.0005⟩),
  ("gemini-1.5-pro", ⟨0.00125, 0.005⟩),
  ("gemini-1.5-flash", ⟨0.000075, 0.0003⟩),
  ("gemini-2.0-flash", ⟨0.0001, 0.0004⟩),
  ("deepseek-chat", ⟨0.00014, 0.00028⟩),
  ("deepseek-coder", ⟨0.00014, 0.00028⟩),
  ("deepseek-reasoner", ⟨0.00055, 0.00219⟩),
  ("mistral-small", ⟨0.001, 0.003⟩),
  ("mistral-medium", ⟨0.00275, 0.0081⟩),
  ("mistral-large", ⟨0.004, 0.012⟩),
  ("command", ⟨0.001, 0.002⟩),
  ("command-light", ⟨0.0003, 0.0006⟩),
  ("command-r", ⟨0.0005, 0.0015⟩),
  ("command-r-plus", ⟨0.003, 0.015⟩),
  ("meta-llama/Llama-3-70b-chat-hf", ⟨0.0009, 0.0009⟩),
  ("meta-llama/Llama-3-8b-chat-hf", ⟨0.0002, 0.0002⟩)]

/-- Python dict membership plus indexing: `d[k] if k in d else None`. -/
def pyDictGet (d : List (String × Pricing)) (k : String) : Option Pricing :=
  (d.find? (fun kv => kv.1 == k)).map (fun kv => kv.2)

/-- Fuzzy step shared by both tiers of CostCalculator._get_model_pricing:
first entry whose key is a substring of the lowercased queried model. -/
def tierFuzzy (d : List (String × Pricing)) (modelLower : String) : Option Pricing :=
  (d.find? (fun kv => strHasSub kv.1 modelLower)).map (fun kv => kv.2)

/-- One pricing tier of CostCalculator._get_model_pricing: exact dict hit,
else the one-directional fuzzy scan, else fall through (none). -/
def tierLookup (d : List (String × Pricing)) (model : String) : Option Pricing :=
  match pyDictGet d model with
  | some p => some p
  | none => tierFuzzy d (pyLower model)

/-- DynamicPricingManager.get_pricing with the network fetch in its
failed/absent mode (cache left unchanged, per the exception handler of
_fetch_pricing): returns the cache if non-empty, else DEFAULT_PRICING. -/
def managerGetPricing (cache : List (String × Pricing)) : List (String × Pricing) :=
  if cache.isEmpty then DEFAULT_PRICING else cache

/-- Slice of AgentCostConfig consumed by the pricing path. -/
structure SdkConfig where
  custom_pricing : List (String × Pricing)
  base_url : String
  debug : Bool

/-- Static-table fallback portion of CostCalculator._get_model_pricing:
exact DEFAULT_PRICING hit, else fuzzy scan, else zero pricing. -/
def staticFallback (model : String) : Pricing :=
  match tierLookup DEFAULT_PRICING model with
  | some p => p
  | none => ⟨0, 0⟩

/-- CostCalculator._get_model_pricing: instance custom pricing, then global
config custom pricing, then (when a config with a non-empty base_url exists)
the dynamic tier, then the static fallback. -/
def get_model_pricing (selfCustom : List (String × Pricing)) (cfg : Option SdkConfig)
    (cache : List (String × Pricing)) (model : String) : Pricing :=
  match pyDictGet selfCustom model with
  | some p => p
  | none =>
    match cfg.bind (fun c => pyDictGet c.custom_pricing model) with
    | some p => p
    | none =>
      match cfg with
      | some c =>
        if c.base_url ≠ "" then
          match tierLookup (managerGetPricing cache) model with
          | some p => p
          | none => staticFallback model
        else staticFallback model
      | none => staticFallback model

/-- AgentCostConfig.get_pricing from src/agentcost/config.py: custom map,
exact DEFAULT_PRICING hit, then a bidirectional fuzzy scan, else zero. -/
def config_get_pricing (c : SdkConfig) (model : String) : Pricing :=
  match pyDictGet c.custom_pricing model with
  | some p => p
  | none =>
    match pyDictGet DEFAULT_PRICING model with
    | some p => p
    | none =>
      match (DEFAULT_PRICING.find? (fun kv =>
          strHasSub kv.1 (pyLower model) || strHasSub (pyLower model) kv.1)).map
          (fun kv => kv.2) with
      | some p => p
      | none => ⟨0, 0⟩

/-- Python3 round() to an integer: banker's rounding (ties to even). -/
def pyRoundHalfEven (q : ℚ) : ℤ :=
  let f := Int.floor q
  let frac := q - f
  if frac < 1/2 then f
  else if 1/2 < frac then f + 1
  else if f % 2 = 0 then f else f + 1

/-- round(x, 8) from CostCalculator.calculate_cost. -/
def pyRound8 (q : ℚ) : ℚ := (pyRoundHalfEven (q * 100000000) : ℚ) / 100000000

/-- CostCalculator.calculate_cost. -/
def calculate_cost (selfCustom : List (String × Pricing)) (cfg : Option SdkConfig)
    (cache : List (String × Pricing)) (model : String)
    (input_tokens output_tokens : ℤ) : ℚ :=
  let pricing := get_model_pricing selfCustom cfg cache model
  let input_cost := ((input_tokens : ℚ) / 1000) * pricing.input
  let output_cost := ((output_tokens : ℚ) / 1000) * pricing.output
  pyRound8 (input_cost + output_cost)

/-- Outcome of the POST performed inside AgentCostHTTPClient.send_events.
A response carries its status code and, when the body parses as JSON, the
body object as a string-to-string map (none models a json() parse failure). -/
inductive HttpOutcome where
  | timeout
  | connError
  | httpResponse (status : ℕ) (body : Option (List (String × String)))
  | otherError
deriving DecidableEq

/-- AgentCostHTTPClient.send_events: raise_for_status raises HTTPError for
status codes 400-599 (caught, returns false); a body parse failure or any
other exception returns false; otherwise true exactly when the body field
status equals ok. -/
def send_events : HttpOutcome → Bool
  | .timeout => false
  | .connError => false
  | .otherError => false
  | .httpResponse status body =>
    if 400 ≤ status ∧ status < 600 then false
    else
      match body with
      | none => false
      | some data =>
        match data.lookup "status" with
        | some v => v == "ok"
        | none => false

/-- RateLimiter construction parameters. -/
structure RateLimiter where
  max_requests : ℕ
  window_seconds : ℚ

/-- Python min() over a list, none when the list is empty (ValueError). -/
def listMin : List ℚ → Option ℚ
  | [] => none
  | x :: xs => some (xs.foldl min x)

/-- RateLimiter.acquire at time now over the recorded request timestamps:
prune entries outside the window, admit (recording now) when below
max_requests, else report the wait until the oldest pruned entry expires.
none models the ValueError of min() on an empty list. -/
def RateLimiter.acquire (rl : RateLimiter) (reqs : List ℚ) (now : ℚ) :
    Option (ℚ × List ℚ) :=
  let pruned := reqs.filter (fun t => now - t < rl.window_seconds)
  if pruned.length < rl.max_requests then
    some (0, pruned ++ [now])
  else
    match listMin pruned with
    | none => none
    | some oldest => some (max 0 (rl.window_seconds - (now - oldest)), pruned)

/-- Sequence of acquire calls at the given times; returns the waits and the
final recorded-timestamp state. -/
def runAcquires (rl : RateLimiter) (reqs : List ℚ) : List ℚ → Option (List ℚ × List ℚ)
  | [] => some ([], reqs)
  | t :: ts =>
    match rl.acquire reqs t with
    | none => none
    | some (w, reqs2) =>
      match runAcquires rl reqs2 ts with
      | none => none
      | some (ws, reqsf) => some (w :: ws, reqsf)

/-- Result of one flush_callback invocation: a returned boolean, or a raised
exception. -/
inductive CbResult where
  | ok (b : Bool)
  | exn
deriving DecidableEq

/-- Statistics counter set of HybridBatcher. -/
@[ext]
structure BatchStats where
  events_added : ℕ
  events_sent : ℕ
  batches_sent : ℕ
  batches_failed : ℕ
deriving DecidableEq, Repr

/-- Lock-guarded state of a HybridBatcher (events are opaque payloads α). -/
@[ext]
structure BatcherState (α : Type) where
  batch_size : ℕ
  max_retry_batches : ℕ
  batch : List α
  failed_batches : List (List α)
  running : Bool
  stats : BatchStats
deriving DecidableEq

namespace HybridBatcher

variable {α : Type}

/-- HybridBatcher._handle_failed_batch: count the failure; append to the
retry buffer when below capacity, else drop the incoming events with a
warning. -/
def handle_failed_batch (st : BatcherState α) (events : List α) : BatcherState α :=
  let st1 := { st with stats := { st.stats with
      batches_failed := st.stats.batches_failed + 1 } }
  if st1.failed_batches.length < st1.max_retry_batches then
    { st1 with failed_batches := st1.failed_batches ++ [events] }
  else
    st1

/-- HybridBatcher._send_batch: invoke the callback; on ok true bump the sent
counters, on ok false or a raised exception hand the batch to
handle_failed_batch. -/
def send_batch (cb : List α → CbResult) (st : BatcherState α) (events : List α) :
    BatcherState α :=
  match cb events with
  | .ok true =>
    { st with stats := { st.stats with
        events_sent := st.stats.events_sent + events.length,
        batches_sent := st.stats.batches_sent + 1 } }
  | .ok false => handle_failed_batch st events
  | .exn => handle_failed_batch st events

/-- HybridBatcher._flush_locked: copy-and-clear the live queue and dispatch
the copy on a daemon thread; the dispatched batches are returned so their
later send_batch runs are observable. -/
def flush_locked (st : BatcherState α) : BatcherState α × List (List α) :=
  if st.batch.isEmpty then (st, [])
  else ({ st with batch := [] }, [st.batch])

/-- HybridBatcher.flush. -/
def flush (st : BatcherState α) : BatcherState α × List (List α) :=
  flush_locked st

/-- HybridBatcher.add: append, count, and size-trigger a flush when the
batch has reached batch_size. -/
def add (st : BatcherState α) (event : α) : BatcherState α × List (List α) :=
  let st1 := { st with
    batch := st.batch ++ [event]
    stats := { st.stats with events_added := st.stats.events_added + 1 } }
  if st1.batch_size ≤ st1.batch.length then flush_locked st1 else (st1, [])

/-- Loop body of addAll: one add, accumulating its dispatched batches. -/
def addAll_step (acc : BatcherState α × List (List α)) (e : α) :
    BatcherState α × List (List α) :=
  ((add acc.1 e).1, acc.2 ++ (add acc.1 e).2)

/-- Sequence of add calls, accumulating every asynchronously dispatched
batch. -/
def addAll (st : BatcherState α) (events : List α) : BatcherState α × List (List α) :=
  events.foldl addAll_step (st, [])

/-- Loop body of retry_failed_batches: one retried batch, with its success
or re-enqueue handling. -/
def retry_step (cb : List α → CbResult) (acc : BatcherState α × ℕ) (batch : List α) :
    BatcherState α × ℕ :=
  match cb batch with
  | .ok true =>
    ({ acc.1 with stats := { acc.1.stats with
        events_sent := acc.1.stats.events_sent + batch.length,
        batches_sent := acc.1.stats.batches_sent + 1 } }, acc.2 + 1)
  | .ok false =>
    ({ acc.1 with failed_batches := acc.1.failed_batches ++ [batch] }, acc.2)
  | .exn =>
    ({ acc.1 with failed_batches := acc.1.failed_batches ++ [batch] }, acc.2)

/-- HybridBatcher.retry_failed_batches: drain the retry buffer, retry each
batch in order, re-enqueueing the ones that fail; returns the success
count. -/
def retry_failed_batches (cb : List α → CbResult) (st : BatcherState α) :
    BatcherState α × ℕ :=
  let to_retry := st.failed_batches
  let st1 := { st with failed_batches := ([] : List (List α)) }
  to_retry.foldl (retry_step cb) (st1, 0)

/-- HybridBatcher.shutdown: early-return when already stopped; else stop the
periodic loop, synchronously flush the live queue in-line (the callback
invocations made are returned), bump the sent counters unless the callback
raised, and never touch the retry buffer. -/
def shutdown (cb : List α → CbResult) (st : BatcherState α) :
    BatcherState α × List (List α) :=
  if st.running = false then (st, [])
  else
    let st1 := { st with running := false }
    if st1.batch.isEmpty then (st1, [])
    else
      let events := st1.batch
      let st2 := { st1 with batch := ([] : List α) }
      match cb events with
      | .exn => (st2, [events])
      | .ok _ =>
        ({ st2 with stats := { st2.stats with
            events_sent := st2.stats.events_sent + events.length,
            batches_sent := st2.stats.batches_sent + 1 } }, [events])

/-- HybridBatcher.get_stats: counters plus point-in-time queue lengths. -/
def get_stats (st : BatcherState α) : BatchStats × ℕ × ℕ :=
  (st.stats, st.batch.length, st.failed_batches.length)

end HybridBatcher

/-- Freshly constructed HybridBatcher state. -/
def initBatcher (α : Type) (batch_size max_retry_batches : ℕ) : BatcherState α :=
  { batch_size := batch_size, max_retry_batches := max_retry_batches,
    batch := [], failed_batches := [], running := true,
    stats := ⟨0, 0, 0, 0⟩ }

/-- Componentwise order on the four monotone statistics counters. -/
def statsLE (s t : BatchStats) : Prop :=
  s.events_added ≤ t.events_added ∧ s.events_sent ≤ t.events_sent ∧
  s.batches_sent ≤ t.batches_sent ∧ s.batches_failed ≤ t.batches_failed

/-- Always-failing flush callback (collector rejects every batch). -/
def cbFail : List ℕ → CbResult := fun _ => CbResult.ok false

/-! ## Helper lemmas -/

/-- Shutdown always leaves the running flag cleared. -/
theorem shutdown_running_false {α : Type} (cb : List α → CbResult) (st : BatcherState α) :
    (HybridBatcher.shutdown cb st).1.running = false := by
  unfold HybridBatcher.shutdown
  by_cases h : st.running = false
  · simp [h]
  · simp only [if_neg h]
    by_cases hb : st.batch.isEmpty
    · simp [hb]
    · simp only [hb, Bool.false_eq_true, if_neg]
      cases cb st.batch <;> simp

/-- Rounding to 8 decimal places is the identity on exact multiples of
10^-8. -/
theorem pyRound8_exact (q : ℚ) (n : ℤ) (h : q * 100000000 = (n : ℚ)) :
    pyRound8 q = q := by
  have hq : q = (n : ℚ) / 100000000 := by
    rw [eq_div_iff (by norm_num : (100000000 : ℚ) ≠ 0)]
    exact h
  rw [pyRound8, h, pyRoundHalfEven]
  norm_num [hq]

/-! ## Claim theorems -/

/-- C4: calculate_cost(model, i, o) equals the per-1000-token linear formula
rounded to 8 decimal places; calculate_cost("gpt-4", 1000, 1000) = 0.09 under
the static rates, and calculate_cost(model, 0, 0) = 0 for every model and
every pricing state. -/
theorem calculate_cost_formula_values :
    (∀ (selfCustom : List (String × Pricing)) (cfg : Option SdkConfig)
        (cache : List (String × Pricing)) (model : String),
      calculate_cost selfCustom cfg cache model 0 0 = 0) ∧
    calculate_cost [] none [] "gpt-4" 1000 1000 = 9/100 ∧
    (∀ (selfCustom : List (String × Pricing)) (cfg : Option SdkConfig)
        (cache : List (String × Pricing)) (model : String) (i o : ℤ),
      calculate_cost selfCustom cfg cache model i o =
        pyRound8 (((i : ℚ) * (get_model_pricing selfCustom cfg cache model).input +
          (o : ℚ) * (get_model_pricing selfCustom cfg cache model).output) / 1000)) := by
  refine ⟨?_, ?_, ?_⟩
  · intro selfCustom cfg cache model
    unfold calculate_cost
    norm_num [pyRound8, pyRoundHalfEven]
  · have hp : get_model_pricing [] none [] "gpt-4" = ⟨0.03, 0.06⟩ := rfl
    show pyRound8 ((((1000 : ℤ) : ℚ) / 1000) * (get_model_pricing [] none [] "gpt-4").input +
        (((1000 : ℤ) : ℚ) / 1000) * (get_model_pricing [] none [] "gpt-4").output) = 9/100
    rw [hp]
    have h : (((1000 : ℤ) : ℚ) / 1000) * (Pricing.mk 0.03 0.06).input +
        (((1000 : ℤ) : ℚ) / 1000) * (Pricing.mk 0.03 0.06).output = 9/100 := by
      norm_num
    rw [h]
    rw [pyRound8_exact (9/100) 9000000 (by norm_num)]
  · intro selfCustom cfg cache model i o
    unfold calculate_cost
    ring_nf

/-- C5 counterexample: a response with HTTP status 300 (not 2xx) whose body
has status = ok makes send_events return true, because raise_for_status only
raises for 4xx/5xx; so success is not equivalent to a 2xx status with an ok
body. -/
theorem send_events_2xx_cex :
    send_events (HttpOutcome.httpResponse 300 (some [("status", "ok")])) = true ∧
    ¬(200 ≤ 300 ∧ 300 < 300) := by
  decide

/-- C5 amended: send_events returns true exactly when the response status is
not in 400..599 and the body parses as JSON with status field ok; every
other outcome (4xx/5xx status, timeout, connection error, malformed body,
any other exception) yields false, and the function is total. -/
theorem send_events_success_characterization :
    (∀ (status : ℕ) (body : Option (List (String × String))),
      send_events (HttpOutcome.httpResponse status body) = true ↔
        (¬(400 ≤ status ∧ status < 600) ∧
          ∃ data, body = some data ∧ data.lookup "status" = some "ok")) ∧
    send_events HttpOutcome.timeout = false ∧
    send_events HttpOutcome.connError = false ∧
    send_events HttpOutcome.otherError = false := by
  refine ⟨?_, rfl, rfl, rfl⟩
  intro status body
  unfold send_events
  by_cases h : 400 ≤ status ∧ status < 600
  · simp [h]
  · simp only [if_neg h]
    cases body with
    | none => simp [h]
    | some data =>
      cases hd : data.lookup "status" with
      | none => simp [h, hd]
      | some v => simp [h, hd, beq_iff_eq]

/-- C8: shutdown is idempotent: whatever the batcher state, a second
shutdown returns immediately, makes no callback invocation (hence no
duplicate delivery), and leaves the state unchanged. -/
theorem shutdown_idempotent_noop {α : Type} (cb : List α → CbResult) (st : BatcherState α) :
    HybridBatcher.shutdown cb (HybridBatcher.shutdown cb st).1 =
      ((HybridBatcher.shutdown cb st).1, []) := by
  have h := shutdown_running_false cb st
  generalize hg : (HybridBatcher.shutdown cb st).1 = X at h ⊢
  unfold HybridBatcher.shutdown
  simp [h]

/-- C10: in shutdown's final synchronous flush the sent counters are bumped
whenever the callback returns normally — a returned False included — and the
final batch never reaches the retry buffer; only a raised exception skips
the counter bump. -/
theorem shutdown_final_flush_counts {α : Type} (cb : List α → CbResult)
    (st : BatcherState α) (hrun : st.running = true) (hne : st.batch ≠ []) :
    (HybridBatcher.shutdown cb st).1.failed_batches = st.failed_batches ∧
    (cb st.batch ≠ CbResult.exn →
      (HybridBatcher.shutdown cb st).1.stats.events_sent =
        st.stats.events_sent + st.batch.length ∧
      (HybridBatcher.shutdown cb st).1.stats.batches_sent =
        st.stats.batches_sent + 1) ∧
    (cb st.batch = CbResult.exn →
      (HybridBatcher.shutdown cb st).1.stats = st.stats) := by
  have hb : st.batch.isEmpty = false := by
    cases hx : st.batch with
    | nil => exact absurd hx hne
    | cons a l => rfl
  unfold HybridBatcher.shutdown
  simp only [hrun, Bool.true_eq_false, if_false, hb, if_neg, Bool.false_eq_true]
  cases hcb : cb st.batch with
  | exn => simp
  | ok b => simp [hcb]

/-- Witness for shutdown_final_flush_counts at a concrete state with one
pending event and a callback returning False. -/
theorem shutdown_final_flush_counts_witness :
    (HybridBatcher.shutdown (fun _ => CbResult.ok false)
      (⟨10, 3, [0], [], true, ⟨1, 0, 0, 0⟩⟩ : BatcherState ℕ)).1.failed_batches = [] ∧
    (HybridBatcher.shutdown (fun _ => CbResult.ok false)
      (⟨10, 3, [0], [], true, ⟨1, 0, 0, 0⟩⟩ : BatcherState ℕ)).1.stats.events_sent = 0 + 1 ∧
    (HybridBatcher.shutdown (fun _ => CbResult.ok false)
      (⟨10, 3, [0], [], true, ⟨1, 0, 0, 0⟩⟩ : BatcherState ℕ)).1.stats.batches_sent = 0 + 1 := by
  have h := shutdown_final_flush_counts (fun _ => CbResult.ok false)
    (⟨10, 3, [0], [], true, ⟨1, 0, 0, 0⟩⟩ : BatcherState ℕ) rfl (by simp)
  have h2 := h.2.1 (by simp)
  exact ⟨h.1, h2.1, h2.2⟩

/-- Consecutive failed sends saturate the retry buffer: the buffer holds the
first max_retry_batches failures and every later failure is dropped, while
batches_failed counts every failure. -/
theorem failAll_failed_batches (mr : ℕ) :
    ∀ (bs : List (List ℕ)) (st : BatcherState ℕ),
      st.max_retry_batches = mr → st.failed_batches.length ≤ mr →
      (bs.foldl (HybridBatcher.send_batch cbFail) st).failed_batches =
        (st.failed_batches ++ bs).take mr ∧
      (bs.foldl (HybridBatcher.send_batch cbFail) st).stats.batches_failed =
        st.stats.batches_failed + bs.length := by
  intro bs
  induction bs with
  | nil =>
    intro st h1 h2
    constructor
    · simp only [List.foldl_nil, List.append_nil]
      rw [List.take_of_length_le h2]
    · simp
  | cons b rest ih =>
    intro st h1 h2
    have hsb : HybridBatcher.send_batch cbFail st b =
        HybridBatcher.handle_failed_batch st b := rfl
    simp only [List.foldl_cons, hsb]
    by_cases hlt : st.failed_batches.length < mr
    · have hh : HybridBatcher.handle_failed_batch st b =
          { st with
            failed_batches := st.failed_batches ++ [b],
            stats := { st.stats with
              batches_failed := st.stats.batches_failed + 1 } } := by
        unfold HybridBatcher.handle_failed_batch
        rw [if_pos]
        simpa [h1] using hlt
      rw [hh]
      have := ih { st with
          failed_batches := st.failed_batches ++ [b],
          stats := { st.stats with
            batches_failed := st.stats.batches_failed + 1 } }
        (by simpa using h1) (by simpa using hlt)
      refine ⟨?_, ?_⟩
      · rw [this.1]
        simp
      · rw [this.2]
        simp only [List.length_cons]
        omega
    · have hlen : st.failed_batches.length = mr := by omega
      have hh : HybridBatcher.handle_failed_batch st b =
          { st with stats := { st.stats with
              batches_failed := st.stats.batches_failed + 1 } } := by
        unfold HybridBatcher.handle_failed_batch
        rw [if_neg]
        simpa [h1] using hlt
      rw [hh]
      have := ih { st with stats := { st.stats with
          batches_failed := st.stats.batches_failed + 1 } }
        (by simpa using h1) (by simpa using h2)
      refine ⟨?_, ?_⟩
      · rw [this.1]
        simp only []
        rw [← hlen, List.take_left, List.take_left]
      · rw [this.2]
        simp only [List.length_cons]
        omega

/-- C1 counterexample: with max_retry_batches = 1, two consecutive callback
failures leave the FIRST failed batch in the buffer; the new failure [1] is
the one dropped, so the oldest is not evicted. -/
theorem retry_overflow_evicts_oldest_cex :
    (HybridBatcher.send_batch cbFail
        (HybridBatcher.send_batch cbFail (initBatcher ℕ 10 1) [0]) [1]).failed_batches =
      [[0]] ∧
    ([[0]] : List (List ℕ)) ≠ [[1]] := by
  refine ⟨rfl, by decide⟩

/-- C1 amended: retry-buffer overflow drops the incoming newest batch:
max_retry_batches + 1 consecutive callback failures retain exactly the first
max_retry_batches batches (the newest failure is the one evicted, with a
warning), and batches_failed counts all failures. -/
theorem retry_overflow_drops_newest (mr : ℕ) (bs : List (List ℕ))
    (h : bs.length = mr + 1) :
    (bs.foldl (HybridBatcher.send_batch cbFail) (initBatcher ℕ 10 mr)).failed_batches =
      bs.take mr ∧
    (bs.foldl (HybridBatcher.send_batch cbFail)
      (initBatcher ℕ 10 mr)).failed_batches.length = mr ∧
    (bs.foldl (HybridBatcher.send_batch cbFail)
      (initBatcher ℕ 10 mr)).stats.batches_failed = mr + 1 := by
  have hf := failAll_failed_batches mr bs (initBatcher ℕ 10 mr) rfl
    (by simp [initBatcher])
  have h1 : (bs.foldl (HybridBatcher.send_batch cbFail)
      (initBatcher ℕ 10 mr)).failed_batches = bs.take mr := by
    rw [hf.1]
    simp [initBatcher]
  refine ⟨h1, ?_, ?_⟩
  · rw [h1, List.length_take, h]
    omega
  · rw [hf.2, h]
    simp [initBatcher]

/-- Witness for retry_overflow_drops_newest with max_retry_batches = 1 and
two failed batches. -/
theorem retry_overflow_drops_newest_witness :
    ([[0], [1]] : List (List ℕ)).length = 1 + 1 ∧
    (([[0], [1]] : List (List ℕ)).foldl (HybridBatcher.send_batch cbFail)
        (initBatcher ℕ 10 1)).failed_batches = [[0]] := by
  have h := retry_overflow_drops_newest 1 [[0], [1]] rfl
  exact ⟨rfl, h.1⟩

/-- Exact dict hit short-circuits a pricing tier. -/
theorem tierLookup_exact (d : List (String × Pricing)) (model : String) (p : Pricing)
    (hp : pyDictGet d model = some p) : tierLookup d model = some p := by
  unfold tierLookup
  rw [hp]

/-- Tier with no exact hit and no one-directional fuzzy hit falls through. -/
theorem tierLookup_none (d : List (String × Pricing)) (model : String)
    (hex : pyDictGet d model = none)
    (hfz : ∀ kv ∈ d, strHasSub kv.1 (pyLower model) = false) :
    tierLookup d model = none := by
  unfold tierLookup tierFuzzy
  rw [hex]
  simp only [Option.map_eq_none']
  rw [List.find?_eq_none]
  intro kv hkv
  simp [hfz kv hkv]

/-- Static fallback on an exact DEFAULT_PRICING hit. -/
theorem staticFallback_of_exact (model : String) (p : Pricing)
    (hp : pyDictGet DEFAULT_PRICING model = some p) : staticFallback model = p := by
  unfold staticFallback
  rw [tierLookup_exact DEFAULT_PRICING model p hp]

/-- Static fallback degrades to zero pricing when DEFAULT_PRICING has no
exact and no fuzzy hit. -/
theorem staticFallback_zero (model : String)
    (hex : pyDictGet DEFAULT_PRICING model = none)
    (hfz : ∀ kv ∈ DEFAULT_PRICING, strHasSub kv.1 (pyLower model) = false) :
    staticFallback model = ⟨0, 0⟩ := by
  unfold staticFallback
  rw [tierLookup_none DEFAULT_PRICING model hex hfz]

/-- With no instance custom pricing, an empty config custom map and an empty
remote cache, _get_model_pricing reduces to the static fallback whatever the
base_url is, because the dynamic tier then presents DEFAULT_PRICING. -/
theorem get_model_pricing_empty_cache (c : SdkConfig) (hc : c.custom_pricing = [])
    (model : String) :
    get_model_pricing [] (some c) [] model = staticFallback model := by
  unfold get_model_pricing
  simp only [pyDictGet, List.find?_nil, Option.map_none', Option.some_bind, hc]
  by_cases hurl : c.base_url = ""
  · simp [hurl]
  · simp only [hurl, ne_eq, not_false_iff, if_true]
    have hm : managerGetPricing [] = DEFAULT_PRICING := rfl
    rw [hm]
    unfold staticFallback
    cases h : tierLookup DEFAULT_PRICING model <;> simp [h]

/-- C3: pricing lookup is total and degrades monotonically: with no custom
pricing configured, a model present in the static table resolves to that
entry whether the config is absent or the remote cache is empty, and a model
absent from every tier (no exact, no fuzzy hit) resolves to zero pricing,
never an error. -/
theorem pricing_lookup_total_fallback (model : String) (c : SdkConfig)
    (hc : c.custom_pricing = []) :
    (∀ p, pyDictGet DEFAULT_PRICING model = some p →
      get_model_pricing [] none [] model = p ∧
      get_model_pricing [] (some c) [] model = p) ∧
    (pyDictGet DEFAULT_PRICING model = none →
      (∀ kv ∈ DEFAULT_PRICING, strHasSub kv.1 (pyLower model) = false) →
      get_model_pricing [] none [] model = ⟨0, 0⟩ ∧
      get_model_pricing [] (some c) [] model = ⟨0, 0⟩) := by
  have hnone : get_model_pricing [] none [] model = staticFallback model := rfl
  have hsome := get_model_pricing_empty_cache c hc model
  constructor
  · intro p hp
    rw [hnone, hsome, staticFallback_of_exact model p hp]
    exact ⟨rfl, rfl⟩
  · intro hex hfz
    rw [hnone, hsome, staticFallback_zero model hex hfz]
    exact ⟨rfl, rfl⟩

/-- Witness for pricing_lookup_total_fallback: gpt-4 resolves to the static
entry with or without a config, and a model absent everywhere resolves to
zero pricing. -/
theorem pricing_lookup_total_fallback_witness :
    (get_model_pricing [] none [] "gpt-4" = ⟨0.03, 0.06⟩ ∧
      get_model_pricing [] (some ⟨[], "https://api.agentcost.dev", false⟩) [] "gpt-4" =
        ⟨0.03, 0.06⟩) ∧
    (get_model_pricing [] none [] "zz-unknown" = ⟨0, 0⟩ ∧
      get_model_pricing [] (some ⟨[], "https://api.agentcost.dev", false⟩) [] "zz-unknown" =
        ⟨0, 0⟩) := by
  constructor
  · exact (pricing_lookup_total_fallback "gpt-4"
      ⟨[], "https://api.agentcost.dev", false⟩ rfl).1 ⟨0.03, 0.06⟩ rfl
  · refine (pricing_lookup_total_fallback "zz-unknown"
      ⟨[], "https://api.agentcost.dev", false⟩ rfl).2 rfl ?_
    intro kv hkv
    unfold DEFAULT_PRICING at hkv
    fin_cases hkv <;> rfl

/-- C2 counterexample: the queried model claude-3-op is a substring of the
known key claude-3-opus, so a bidirectional fuzzy match would return that
entry, but _get_model_pricing returns zero pricing, which is no known
entry: the fuzzy fallback does not match in the known-key-contains-query
direction. -/
theorem fuzzy_bidirectional_cex :
    get_model_pricing [] none [] "claude-3-op" = ⟨0, 0⟩ ∧
    strHasSub "claude-3-op" "claude-3-opus" = true ∧
    ("claude-3-opus", (⟨0.015, 0.075⟩ : Pricing)) ∈ DEFAULT_PRICING ∧
    pyDictGet DEFAULT_PRICING "claude-3-op" = none ∧
    ∀ kv ∈ DEFAULT_PRICING, kv.2 ≠ (⟨0, 0⟩ : Pricing) := by
  refine ⟨rfl, rfl, by simp [DEFAULT_PRICING], rfl, ?_⟩
  intro kv hkv
  unfold DEFAULT_PRICING at hkv
  fin_cases hkv <;> norm_num [Pricing.mk.injEq]

/-- C2 amended: in _get_model_pricing each tier's fuzzy fallback is
one-directional: past the exact match it returns a known entry exactly when
some known key is a substring of the lowercased queried model name (the
first such entry), and falls through otherwise; the
query-contained-in-known-key direction does not match. -/
theorem fuzzy_match_one_directional (d : List (String × Pricing)) (model : String)
    (hex : pyDictGet d model = none) :
    (tierLookup d model = none ↔
      ∀ kv ∈ d, strHasSub kv.1 (pyLower model) = false) ∧
    (∀ p, tierLookup d model = some p →
      ∃ kv ∈ d, strHasSub kv.1 (pyLower model) = true ∧ p = kv.2) := by
  constructor
  · constructor
    · intro hn kv hkv
      by_contra hb
      have hb2 : strHasSub kv.1 (pyLower model) = true := by
        cases hv : strHasSub kv.1 (pyLower model)
        · exact absurd hv hb
        · rfl
      have : tierLookup d model ≠ none := by
        unfold tierLookup tierFuzzy
        rw [hex]
        simp only [Option.map_eq_none', ne_eq, List.find?_eq_none, not_forall]
        exact ⟨kv, hkv, by simp [hb2]⟩
      exact this hn
    · intro hfz
      exact tierLookup_none d model hex hfz
  · intro p hp
    unfold tierLookup tierFuzzy at hp
    rw [hex] at hp
    rcases Option.map_eq_some'.mp hp with ⟨kv, hfind, hval⟩
    have hkv_mem := List.mem_of_find?_eq_some hfind
    have hpred := List.find?_some hfind
    exact ⟨kv, hkv_mem, hpred, hval.symm⟩

/-- Witness for fuzzy_match_one_directional: GPT-4-0613 has no exact static
entry; lowercased it contains the known key gpt-4, whose entry the fuzzy
scan returns. -/
theorem fuzzy_match_one_directional_witness :
    pyDictGet DEFAULT_PRICING "GPT-4-0613" = none ∧
    ∃ kv ∈ DEFAULT_PRICING, strHasSub kv.1 (pyLower "GPT-4-0613") = true ∧
      (⟨0.03, 0.06⟩ : Pricing) = kv.2 :=
  ⟨rfl, (fuzzy_match_one_directional DEFAULT_PRICING "GPT-4-0613" rfl).2
    ⟨0.03, 0.06⟩ rfl⟩

/-- An add below the size threshold only appends and counts; no flush is
dispatched. -/
theorem add_no_trigger {α : Type} (st : BatcherState α) (e : α)
    (h : st.batch.length + 1 < st.batch_size) :
    HybridBatcher.add st e =
      ({ st with
        batch := st.batch ++ [e]
        stats := { st.stats with
          events_added := st.stats.events_added + 1 } }, []) := by
  unfold HybridBatcher.add
  rw [if_neg]
  show ¬(st.batch_size ≤ (st.batch ++ [e]).length)
  simp only [List.length_append, List.length_cons, List.length_nil]
  omega

/-- Folding adds that stay below the size threshold appends all events,
counts them, and dispatches nothing. -/
theorem addAll_fold {α : Type} (es : List α) :
    ∀ (st : BatcherState α) (sp : List (List α)),
      st.batch.length + es.length < st.batch_size →
      es.foldl HybridBatcher.addAll_step (st, sp) =
        ({ st with
          batch := st.batch ++ es
          stats := { st.stats with
            events_added := st.stats.events_added + es.length } }, sp) := by
  induction es with
  | nil =>
    intro st sp h
    simp only [List.foldl_nil, List.length_nil, List.append_nil, Nat.add_zero]
  | cons e rest ih =>
    intro st sp h
    have he : HybridBatcher.add st e =
        ({ st with
          batch := st.batch ++ [e]
          stats := { st.stats with
            events_added := st.stats.events_added + 1 } }, []) := by
      apply add_no_trigger
      simp only [List.length_cons] at h
      omega
    have hstep : HybridBatcher.addAll_step (st, sp) e =
        ({ st with
          batch := st.batch ++ [e]
          stats := { st.stats with
            events_added := st.stats.events_added + 1 } }, sp) := by
      unfold HybridBatcher.addAll_step
      rw [he]
      simp
    simp only [List.foldl_cons, hstep]
    rw [ih]
    · refine Prod.ext ?_ rfl
      ext <;> simp [List.append_assoc] <;> try omega
    · simp only [List.length_append, List.length_cons, List.length_nil]
      simp only [List.length_cons] at h
      omega

/-- C7: adding N events (0 < N < batch_size) to a fresh batcher dispatches
no asynchronous batch; shutdown then passes exactly those N events to the
flush callback exactly once, synchronously in-line, empties the live queue
and stops the periodic loop before returning. -/
theorem shutdown_drains_pending (bs mr : ℕ) (es : List ℕ) (cb : List ℕ → CbResult)
    (hne : es ≠ []) (hlt : es.length < bs) :
    (HybridBatcher.addAll (initBatcher ℕ bs mr) es).2 = [] ∧
    (HybridBatcher.addAll (initBatcher ℕ bs mr) es).1.batch = es ∧
    (HybridBatcher.shutdown cb (HybridBatcher.addAll (initBatcher ℕ bs mr) es).1).2 =
      [es] ∧
    (HybridBatcher.shutdown cb
      (HybridBatcher.addAll (initBatcher ℕ bs mr) es).1).1.running = false ∧
    (HybridBatcher.shutdown cb
      (HybridBatcher.addAll (initBatcher ℕ bs mr) es).1).1.batch = [] := by
  have hfold := addAll_fold es (initBatcher ℕ bs mr) []
    (by simpa [initBatcher] using hlt)
  have ha : HybridBatcher.addAll (initBatcher ℕ bs mr) es =
      ({ initBatcher ℕ bs mr with
        batch := es
        stats := { (initBatcher ℕ bs mr).stats with
          events_added := (initBatcher ℕ bs mr).stats.events_added + es.length } },
        []) := by
    unfold HybridBatcher.addAll
    rw [hfold]
    simp [initBatcher]
  rw [ha]
  have hbe : es.isEmpty = false := by
    cases es with
    | nil => exact absurd rfl hne
    | cons a l => rfl
  refine ⟨rfl, rfl, ?_, ?_, ?_⟩ <;>
    (unfold HybridBatcher.shutdown
     simp only [initBatcher, Bool.true_eq_false, if_false, hbe, Bool.false_eq_true]
     cases hcb : cb es <;> simp)

/-- Witness for shutdown_drains_pending with three events on a fresh
batcher of batch_size 10. -/
theorem shutdown_drains_pending_witness :
    (HybridBatcher.addAll (initBatcher ℕ 10 100) [5, 6, 7]).2 = [] ∧
    (HybridBatcher.addAll (initBatcher ℕ 10 100) [5, 6, 7]).1.batch = [5, 6, 7] ∧
    (HybridBatcher.shutdown (fun _ => CbResult.ok true)
      (HybridBatcher.addAll (initBatcher ℕ 10 100) [5, 6, 7]).1).2 = [[5, 6, 7]] := by
  have h := shutdown_drains_pending 10 100 [5, 6, 7] (fun _ => CbResult.ok true)
    (by decide) (by decide)
  exact ⟨h.1, h.2.1, h.2.2.1⟩

/-- Componentwise reflexivity of the stats order. -/
theorem statsLE_refl (s : BatchStats) : statsLE s s :=
  ⟨le_refl _, le_refl _, le_refl _, le_refl _⟩

/-- Componentwise transitivity of the stats order. -/
theorem statsLE_trans {a b c : BatchStats} (h1 : statsLE a b) (h2 : statsLE b c) :
    statsLE a c :=
  ⟨le_trans h1.1 h2.1, le_trans h1.2.1 h2.2.1, le_trans h1.2.2.1 h2.2.2.1,
    le_trans h1.2.2.2 h2.2.2.2⟩

/-- flush_locked never touches the statistics. -/
theorem flush_locked_stats {α : Type} (st : BatcherState α) :
    (HybridBatcher.flush_locked st).1.stats = st.stats := by
  unfold HybridBatcher.flush_locked
  split <;> rfl

/-- handle_failed_batch only increments batches_failed. -/
theorem handle_failed_statsLE {α : Type} (st : BatcherState α) (events : List α) :
    statsLE st.stats (HybridBatcher.handle_failed_batch st events).stats := by
  simp only [HybridBatcher.handle_failed_batch]
  split <;> exact ⟨le_refl _, le_refl _, le_refl _, Nat.le_succ _⟩

/-- send_batch only increments counters. -/
theorem send_batch_statsLE {α : Type} (cb : List α → CbResult) (st : BatcherState α)
    (events : List α) :
    statsLE st.stats (HybridBatcher.send_batch cb st events).stats := by
  unfold HybridBatcher.send_batch
  cases cb events with
  | exn => exact handle_failed_statsLE st events
  | ok b =>
    cases b
    · exact handle_failed_statsLE st events
    · exact ⟨le_refl _, Nat.le_add_right _ _, Nat.le_succ _, le_refl _⟩

/-- Each retry-loop step only increments counters. -/
theorem retry_fold_statsLE {α : Type} (cb : List α → CbResult) :
    ∀ (l : List (List α)) (acc : BatcherState α × ℕ),
      statsLE acc.1.stats ((l.foldl (HybridBatcher.retry_step cb) acc).1).stats := by
  intro l
  induction l with
  | nil => intro acc; exact statsLE_refl _
  | cons b rest ih =>
    intro acc
    simp only [List.foldl_cons]
    refine statsLE_trans ?_ (ih _)
    unfold HybridBatcher.retry_step
    cases cb b with
    | exn => exact statsLE_refl _
    | ok bb =>
      cases bb
      · exact statsLE_refl _
      · exact ⟨le_refl _, Nat.le_add_right _ _, Nat.le_succ _, le_refl _⟩

/-- C9: the four statistics counters only ever grow: add, flush,
batch send, retrying failed batches and shutdown never decrease any of
events_added, events_sent, batches_sent, batches_failed — while the
pending_events and failed_batches queue lengths are point-in-time values
that can shrink, as the two concrete final conjuncts exhibit. -/
theorem batcher_stats_monotone (st : BatcherState ℕ) (ev : ℕ) (cb : List ℕ → CbResult)
    (events : List ℕ) :
    statsLE st.stats (HybridBatcher.add st ev).1.stats ∧
    statsLE st.stats (HybridBatcher.flush st).1.stats ∧
    statsLE st.stats (HybridBatcher.send_batch cb st events).stats ∧
    statsLE st.stats (HybridBatcher.retry_failed_batches cb st).1.stats ∧
    statsLE st.stats (HybridBatcher.shutdown cb st).1.stats ∧
    (HybridBatcher.flush (⟨10, 10, [0], [], true, ⟨1, 0, 0, 0⟩⟩ : BatcherState ℕ)).1.batch.length <
      (⟨10, 10, [0], [], true, ⟨1, 0, 0, 0⟩⟩ : BatcherState ℕ).batch.length ∧
    (HybridBatcher.retry_failed_batches (fun _ => CbResult.ok true)
        (⟨10, 10, [], [[1]], true, ⟨1, 0, 0, 0⟩⟩ : BatcherState ℕ)).1.failed_batches.length <
      (⟨10, 10, [], [[1]], true, ⟨1, 0, 0, 0⟩⟩ : BatcherState ℕ).failed_batches.length := by
  refine ⟨?_, ?_, send_batch_statsLE cb st events, ?_, ?_, by decide, by decide⟩
  · simp only [HybridBatcher.add]
    split
    · rw [flush_locked_stats]
      exact ⟨Nat.le_succ _, le_refl _, le_refl _, le_refl _⟩
    · exact ⟨Nat.le_succ _, le_refl _, le_refl _, le_refl _⟩
  · unfold HybridBatcher.flush
    rw [flush_locked_stats]
    exact statsLE_refl _
  · show statsLE st.stats ((st.failed_batches.foldl (HybridBatcher.retry_step cb)
      ({ st with failed_batches := ([] : List (List ℕ)) }, 0)).1).stats
    exact retry_fold_statsLE cb st.failed_batches
      ({ st with failed_batches := ([] : List (List ℕ)) }, 0)
  · unfold HybridBatcher.shutdown
    by_cases h : st.running = false
    · simp only [h, if_true]
      exact statsLE_refl _
    · simp only [h, if_false]
      by_cases hb : st.batch.isEmpty
      · simp only [hb, if_true]
        exact statsLE_refl _
      · simp only [hb, Bool.false_eq_true, if_neg]
        cases cb st.batch with
        | exn => exact statsLE_refl _
        | ok b => exact ⟨le_refl _, Nat.le_add_right _ _, Nat.le_succ _, le_refl _⟩

/-- Folding min over values no smaller than the accumulator returns the
accumulator. -/
theorem foldl_min_of_le (xs : List ℚ) :
    ∀ (a : ℚ), (∀ x ∈ xs, a ≤ x) → xs.foldl min a = a := by
  induction xs with
  | nil => intro a _; rfl
  | cons x rest ih =>
    intro a h
    simp only [List.foldl_cons]
    rw [min_eq_left (h x (List.mem_cons_self x rest))]
    exact ih a (fun y hy => h y (List.mem_cons_of_mem _ hy))

/-- A successful prefix of acquire calls composes with the remaining calls. -/
theorem runAcquires_append (rl : RateLimiter) (xs : List ℚ) :
    ∀ (reqs ys : List ℚ) (ws1 st1 : List ℚ),
      runAcquires rl reqs xs = some (ws1, st1) →
      runAcquires rl reqs (xs ++ ys) =
        (runAcquires rl st1 ys).map (fun r => (ws1 ++ r.1, r.2)) := by
  induction xs with
  | nil =>
    intro reqs ys ws1 st1 h
    simp only [runAcquires, Option.some.injEq, Prod.mk.injEq] at h
    obtain ⟨hw, hs⟩ := h
    subst hw
    subst hs
    simp only [List.nil_append]
    cases hr : runAcquires rl reqs ys with
    | none => simp [hr]
    | some r => simp [hr]
  | cons x rest ih =>
    intro reqs ys ws1 st1 h
    simp only [runAcquires] at h ⊢
    cases ha : rl.acquire reqs x with
    | none =>
      rw [ha] at h
      simp at h
    | some wr =>
      obtain ⟨w, reqs2⟩ := wr
      rw [ha] at h
      dsimp only at h ⊢
      cases hr : runAcquires rl reqs2 rest with
      | none =>
        rw [hr] at h
        simp at h
      | some r2 =>
        obtain ⟨ws2, st2⟩ := r2
        rw [hr] at h
        simp only [Option.some.injEq, Prod.mk.injEq] at h
        obtain ⟨hw, hs⟩ := h
        subst hw
        subst hs
        simp only [List.append_eq]
        rw [ih reqs2 ys ws2 st2 hr]
        cases hy : runAcquires rl st2 ys with
        | none => simp [hy]
        | some ry => simp [hy]

/-- While the window is not yet full, every acquire admits with zero wait
and appends its timestamp. -/
theorem run_fill (rl : RateLimiter) :
    ∀ (us st : List ℚ),
      st.length + us.length ≤ rl.max_requests →
      (∀ x ∈ st, ∀ u ∈ us, u - x < rl.window_seconds) →
      (∀ a ∈ us, ∀ b ∈ us, b - a < rl.window_seconds) →
      runAcquires rl st us = some (List.replicate us.length 0, st ++ us) := by
  intro us
  induction us with
  | nil =>
    intro st _ _ _
    simp [runAcquires]
  | cons u rest ih =>
    intro st h1 h2 h3
    have hfilter : st.filter (fun t => u - t < rl.window_seconds) = st := by
      rw [List.filter_eq_self]
      intro t ht
      simpa using h2 t ht u (List.mem_cons_self u rest)
    have hacq : rl.acquire st u = some (0, st ++ [u]) := by
      simp only [RateLimiter.acquire]
      rw [hfilter, if_pos]
      simp only [List.length_cons] at h1
      omega
    simp only [runAcquires]
    rw [hacq]
    dsimp only
    have hrec := ih (st ++ [u])
      (by simp only [List.length_append, List.length_cons, List.length_nil]
          simp only [List.length_cons] at h1
          omega)
      (by intro x hx v hv
          rcases List.mem_append.mp hx with hx1 | hx2
          · exact h2 x hx1 v (List.mem_cons_of_mem _ hv)
          · have hxu : x = u := by simpa using hx2
            subst hxu
            exact h3 x (List.mem_cons_self x rest) v (List.mem_cons_of_mem _ hv))
      (by intro a ha b hb
          exact h3 a (List.mem_cons_of_mem _ ha) b (List.mem_cons_of_mem _ hb))
    rw [hrec]
    simp [List.replicate_succ, List.append_assoc]

/-- C6: from an empty window, the first max_requests acquires inside one
window span all return zero wait and record their timestamps; the
(max_requests + 1)-th acquire inside the span returns the positive wait
window_seconds - (now - oldest), which is at most window_seconds, and admits
nothing. -/
theorem rate_limiter_window_bound (rl : RateLimiter) (t0 : ℚ) (ts : List ℚ)
    (tlast : ℚ)
    (hmr : (t0 :: ts).length = rl.max_requests)
    (hsorted : List.Sorted (· ≤ ·) ((t0 :: ts) ++ [tlast]))
    (hspan : tlast - t0 < rl.window_seconds) :
    runAcquires rl [] ((t0 :: ts) ++ [tlast]) =
      some (List.replicate rl.max_requests 0 ++
        [rl.window_seconds - (tlast - t0)], t0 :: ts) ∧
    0 < rl.window_seconds - (tlast - t0) ∧
    rl.window_seconds - (tlast - t0) ≤ rl.window_seconds := by
  rcases List.pairwise_append.mp hsorted with ⟨hp1, _, hcross⟩
  have ht0 : ∀ x ∈ ts, t0 ≤ x := (List.pairwise_cons.mp hp1).1
  have hlow : ∀ x ∈ t0 :: ts, t0 ≤ x := by
    intro x hx
    rcases List.mem_cons.mp hx with hx0 | hxm
    · exact le_of_eq hx0.symm
    · exact ht0 x hxm
  have hhigh : ∀ x ∈ t0 :: ts, x ≤ tlast := by
    intro x hx
    exact hcross x hx tlast (List.mem_singleton_self tlast)
  have hle : t0 ≤ tlast := hhigh t0 (List.mem_cons_self t0 ts)
  have hpos : 0 < rl.window_seconds - (tlast - t0) := by linarith
  have hfill := run_fill rl (t0 :: ts) []
    (by simp [hmr])
    (by intro x hx; simp at hx)
    (by intro a ha b hb
        have ha1 := hlow a ha
        have hb1 := hhigh b hb
        linarith)
  have hfill2 : runAcquires rl [] (t0 :: ts) =
      some (List.replicate rl.max_requests 0, t0 :: ts) := by
    rw [hfill]
    simp [hmr]
  have hfilter2 : (t0 :: ts).filter (fun t => tlast - t < rl.window_seconds) =
      t0 :: ts := by
    rw [List.filter_eq_self]
    intro x hx
    have h1 := hlow x hx
    simp only [decide_eq_true_eq]
    linarith
  have hmin : listMin (t0 :: ts) = some t0 := by
    simp only [listMin]
    rw [foldl_min_of_le ts t0 ht0]
  have hacq2 : rl.acquire (t0 :: ts) tlast =
      some (rl.window_seconds - (tlast - t0), t0 :: ts) := by
    simp only [RateLimiter.acquire]
    rw [hfilter2, if_neg (by rw [hmr]; omega), hmin]
    dsimp only
    rw [max_eq_right (le_of_lt hpos)]
  have hlaststep : runAcquires rl (t0 :: ts) [tlast] =
      some ([rl.window_seconds - (tlast - t0)], t0 :: ts) := by
    simp only [runAcquires]
    rw [hacq2]
  refine ⟨?_, hpos, by linarith⟩
  rw [runAcquires_append rl (t0 :: ts) [] [tlast]
    (List.replicate rl.max_requests 0) (t0 :: ts) hfill2]
  rw [hlaststep]
  rfl

/-- Witness for rate_limiter_window_bound: limiter of 2 requests per 1
second, acquires at times 0, 1/2 and 3/4. -/
theorem rate_limiter_window_bound_witness :
    runAcquires ⟨2, 1⟩ [] ((0 :: [1/2]) ++ [3/4]) =
      some (List.replicate 2 0 ++ [(1 : ℚ) - (3/4 - 0)], 0 :: [1/2]) ∧
    0 < (1 : ℚ) - (3/4 - 0) ∧
    (1 : ℚ) - (3/4 - 0) ≤ 1 := by
  have h := rate_limiter_window_bound ⟨2, 1⟩ 0 [1/2] (3/4)
    (by rfl)
    (by norm_num [List.Sorted, List.pairwise_cons])
    (by norm_num)
  exact h
